import Mathlib

/-!
Verification of the bounded conversational memory buffer from
`guides/custom-ai-agents` (advanced_agent/memory and template/agent.py).

The Python code stores conversation messages as dicts
`{"role": role, "content": content}` in a plain list.  `BaseMemory._truncate_messages`
enforces the capacity `max_messages` after each `add_message`, keeping a leading
system message when present.  `FileMemory` persists the list as JSON via
`json.dump` / `json.load`, catching all I/O and parse errors.

This file embeds those operations faithfully, including Python's list slicing
semantics (`xs[s:]` with a possibly nonpositive start index, where `xs[-0:]` is
the whole list), and proves or refutes the specified properties.
-/

namespace AgentMemory

/-- A conversation message: the Python dict `{"role": role, "content": content}`
built in `SimpleMemory.add_message` / `FileMemory.add_message`.  The code never
validates the role, so it is an arbitrary string here as well. -/
structure Message where
  role : String
  content : String
deriving DecidableEq, Repr

/-- Python list slice `xs[s:]` for an integer start index `s`.
For `s ≥ 0` this drops the first `s` elements (clamped at the length);
for `s < 0` it keeps the last `|s|` elements (clamped at the length).
Note `xs[-0:] = xs[0:] = xs`: a start index of `-0` is just `0`. -/
def pySliceFrom {α : Type} (s : Int) (xs : List α) : List α :=
  if s < 0 then xs.drop (xs.length - s.natAbs) else xs.drop s.toNat

/-- Embedding of `BaseMemory._truncate_messages` (base_memory.py, lines 54-66):

    if len(messages) <= self.max_messages:
        return messages
    if messages and messages[0].get("role") == "system":
        return [messages[0]] + messages[-(self.max_messages - 1):]
    else:
        return messages[-self.max_messages:]

The slice start `-(self.max_messages - 1)` is `-0 = 0` when `max_messages = 1`,
so in that case the second branch returns the head prepended to the WHOLE list. -/
def truncate_messages (max_messages : Nat) (messages : List Message) : List Message :=
  if messages.length ≤ max_messages then messages
  else
    match messages with
    | [] => []
    | m0 :: _ =>
      if m0.role = "system" then
        m0 :: pySliceFrom (-((max_messages : Int) - 1)) messages
      else
        pySliceFrom (-(max_messages : Int)) messages

/-- State of `SimpleMemory` (simple_memory.py): a capacity and the message list. -/
structure SimpleMemory where
  max_messages : Nat
  messages : List Message
deriving DecidableEq, Repr

/-- `SimpleMemory.__init__`: a fresh memory with the given capacity and no messages. -/
def SimpleMemory.fresh (max_messages : Nat) : SimpleMemory :=
  ⟨max_messages, []⟩

/-- `SimpleMemory.add_message` (simple_memory.py, lines 19-25): append the dict
`{"role": role, "content": content}` and re-truncate. -/
def SimpleMemory.add_message (mem : SimpleMemory) (role content : String) : SimpleMemory :=
  { mem with messages := truncate_messages mem.max_messages (mem.messages ++ [⟨role, content⟩]) }

/-- `SimpleMemory.get_messages`: the current message list (the Python `.copy()`
is irrelevant in a pure embedding). -/
def SimpleMemory.get_messages (mem : SimpleMemory) : List Message :=
  mem.messages

/-- `SimpleMemory.clear` (simple_memory.py, lines 31-33): empty the list. -/
def SimpleMemory.clear (mem : SimpleMemory) : SimpleMemory :=
  { mem with messages := [] }

/-- `AdvancedAgent.clear_memory` (core/agent.py, lines 143-148): clear the memory,
then re-add the system prompt as a fresh system message. -/
def clear_memory (mem : SimpleMemory) (system_prompt : String) : SimpleMemory :=
  (mem.clear).add_message "system" system_prompt

/-- Embedding of `TemplateAgent._truncate_memory` (template/agent.py, lines 61-71).
It differs from `truncate_messages` in its no-system branch (it keeps the last
`N-1` messages, not `N`), and shares the `-(N - 1)` slice. -/
def truncate_memory_template (max_memory_messages : Nat) (messages : List Message) :
    List Message :=
  if max_memory_messages < messages.length then
    match messages with
    | [] => []
    | m0 :: _ =>
      if m0.role = "system" then
        m0 :: pySliceFrom (-((max_memory_messages : Int) - 1)) messages
      else
        pySliceFrom (-((max_memory_messages : Int) - 1)) messages
  else messages

/-- JSON values, as far as the persistence format needs them: `json.dump` writes
the message list as a JSON array of objects with string fields, and `json.load`
parses the file back into such a value.  The textual serialization itself is the
Python standard library (external to this repository); its documented contract is
that `json.load` recovers the value `json.dump` wrote, so the file store is
modelled at the JSON-value level. -/
inductive Json where
  | str : String → Json
  | arr : List Json → Json
  | obj : List (String × Json) → Json

/-- The JSON object `{"role": ..., "content": ...}` that `json.dump` writes for
one message dict. -/
def encode_message (m : Message) : Json :=
  .obj [("role", .str m.role), ("content", .str m.content)]

/-- The JSON array `json.dump(self.messages, f, indent=2)` writes for the whole list. -/
def encode_messages (msgs : List Message) : Json :=
  .arr (msgs.map encode_message)

/-- Typed reading of one parsed JSON object as a message dict: defined exactly on
the shape `encode_message` produces. -/
def decode_message : Json → Option Message
  | .obj [("role", .str r), ("content", .str c)] => some ⟨r, c⟩
  | _ => none

/-- Typed reading of a parsed JSON array as a message list, element by element. -/
def decode_list : List Json → Option (List Message)
  | [] => some []
  | j :: js =>
    match decode_message j, decode_list js with
    | some m, some ms => some (m :: ms)
    | _, _ => none

/-- Typed reading of a parsed JSON value as a message list. -/
def decode_messages : Json → Option (List Message)
  | .arr js => decode_list js
  | _ => none

/-- The three ways reading the backing file of `FileMemory.load` can go:
`open` raises `FileNotFoundError` (`missing`), `open`/`json.load` raises any other
exception (`unreadable`), or `json.load` succeeds with a JSON value (`stored`). -/
inductive FileData where
  | missing
  | unreadable
  | stored : Json → FileData

/-- The value `FileMemory.load` leaves in `self.messages`.  The Python code assigns
`json.load`'s result unchecked, so a well-formed message list is represented as
`.list`, and any other successfully parsed JSON value is kept as `.raw`. -/
inductive LoadedMessages where
  | list : List Message → LoadedMessages
  | raw : Json → LoadedMessages

/-- Embedding of `FileMemory.load` (file_memory.py, lines 55-66): a missing file
(`except FileNotFoundError`) and any other read or parse failure (`except Exception`)
are both caught and leave `self.messages = []`; a successful `json.load` assigns
its result.  The function is total: no error escapes to the caller. -/
def file_load : FileData → LoadedMessages
  | .missing => .list []
  | .unreadable => .list []
  | .stored j =>
    match decode_messages j with
    | some msgs => .list msgs
    | none => .raw j

/-- The file contents `FileMemory.save` writes on success: the JSON encoding of the
full in-memory list. -/
def file_save (msgs : List Message) : FileData :=
  .stored (encode_messages msgs)

/-- The underlying write inside `FileMemory.save`'s `try` block: it either raises
(modelled as `.error`) or persists the encoded list. -/
def write_json (write_fails : Bool) (j : Json) : Except String Json :=
  if write_fails then .error "IOError" else .ok j

/-- State of `FileMemory` (file_memory.py): a capacity and the in-memory message list
(the filename only selects the external store). -/
structure FileMemory where
  max_messages : Nat
  messages : List Message
deriving DecidableEq, Repr

/-- Embedding of `FileMemory.save` (file_memory.py, lines 46-53): the write is
attempted inside `try`; on failure the exception is caught and only logged, the
in-memory state is untouched, and the on-disk state is whatever the failed write
left behind (`fd_on_failure`).  The function is total: no error escapes. -/
def FileMemory.save (mem : FileMemory) (write_fails : Bool) (fd_on_failure : FileData) :
    FileMemory × FileData :=
  match write_json write_fails (encode_messages mem.messages) with
  | .ok j => (mem, .stored j)
  | .error _ => (mem, fd_on_failure)

/-! ## Theorems -/

/-- Prepending to a nonempty list does not change the last element. -/
theorem cons_getLast?_of_ne_nil {α : Type} (a : α) (xs : List α) (h : xs ≠ []) :
    (a :: xs).getLast? = xs.getLast? := by
  cases xs with
  | nil => exact absurd rfl h
  | cons b ys => exact List.getLast?_cons_cons

/-- A Python slice `xs[s:]` with start index strictly below the length keeps the
last element of a nonempty list. -/
theorem pySliceFrom_getLast? {α : Type} (s : Int) (xs : List α)
    (h0 : xs ≠ []) (hs : s < (xs.length : Int)) :
    (pySliceFrom s xs).getLast? = xs.getLast? := by
  have hlen : 0 < xs.length := List.length_pos.mpr h0
  unfold pySliceFrom
  split
  · rename_i hneg
    rw [List.getLast?_drop, if_neg (by omega)]
  · rename_i hpos
    rw [List.getLast?_drop, if_neg (by omega)]

/-- Prepending an element to such a slice still keeps the last element. -/
theorem cons_pySliceFrom_getLast? {α : Type} (a : α) (s : Int) (xs : List α)
    (h0 : xs ≠ []) (hs : s < (xs.length : Int)) :
    (a :: pySliceFrom s xs).getLast? = xs.getLast? := by
  have h1 := pySliceFrom_getLast? s xs h0 hs
  obtain ⟨b, hb⟩ : ∃ b, xs.getLast? = some b := by
    cases hx : xs.getLast? with
    | none => exact absurd (List.getLast?_eq_none_iff.mp hx) h0
    | some b => exact ⟨b, rfl⟩
  have hnn : pySliceFrom s xs ≠ [] := by
    intro hnil
    rw [hnil, hb] at h1
    simp at h1
  rw [cons_getLast?_of_ne_nil a _ hnn, h1]

/-- Truncation keeps the last element of the list. -/
theorem truncate_messages_getLast? (max_messages : Nat) (l : List Message) (m : Message)
    (hl : l.getLast? = some m) :
    (truncate_messages max_messages l).getLast? = some m := by
  have h0 : l ≠ [] := by
    intro h
    rw [h] at hl
    simp at hl
  unfold truncate_messages
  split
  · exact hl
  · cases l with
    | nil => exact absurd rfl h0
    | cons m0 rest =>
      dsimp only
      split
      · cases max_messages with
        | zero =>
          norm_num [pySliceFrom]
          exact hl
        | succ k =>
          rw [cons_pySliceFrom_getLast? m0 _ (m0 :: rest) (List.cons_ne_nil m0 rest)
            (by push_cast; omega)]
          exact hl
      · rw [pySliceFrom_getLast? _ (m0 :: rest) (List.cons_ne_nil m0 rest)
          (by omega)]
        exact hl

/-- After `add_message`, the newest message is the last element of the list,
whatever the capacity. -/
theorem add_message_getLast? (mem : SimpleMemory) (role content : String) :
    ((mem.add_message role content).get_messages).getLast? = some ⟨role, content⟩ := by
  unfold SimpleMemory.add_message SimpleMemory.get_messages
  exact truncate_messages_getLast? mem.max_messages (mem.messages ++ [⟨role, content⟩])
    ⟨role, content⟩ (List.getLast?_concat _)

/-- Reading back the encoding of one message recovers it. -/
theorem decode_encode_message (m : Message) : decode_message (encode_message m) = some m :=
  rfl

/-- Reading back the encodings of a message list recovers the list. -/
theorem decode_list_map_encode (msgs : List Message) :
    decode_list (msgs.map encode_message) = some msgs := by
  induction msgs with
  | nil => rfl
  | cons m ms ih => simp [decode_list, decode_encode_message, ih]

/-- The template agent's truncation exhibits the same capacity-1 growth:
with `max_memory_messages = 1`, a system-led two-message list comes back longer
than it went in, with the system message duplicated. -/
theorem truncate_memory_template_capacity_one_eval :
    truncate_memory_template 1 [⟨"system", "S"⟩, ⟨"user", "U"⟩]
      = [⟨"system", "S"⟩, ⟨"system", "S"⟩, ⟨"user", "U"⟩] :=
  rfl

/-- Claim C1: the claim states that for every capacity `N ≥ 1`, the length of
`get_messages()` is at most `N` after every `add_message`.  The code violates this
at `N = 1`: on a fresh memory of capacity 1, appending a system message and then a
user message leaves THREE messages, because `messages[-(1 - 1):]` is the whole list.
This theorem evaluates the code at that failing input. -/
theorem C1_capacity_one_overflow :
    (((SimpleMemory.fresh 1).add_message "system" "S").add_message "user" "U").get_messages
      = [⟨"system", "S"⟩, ⟨"system", "S"⟩, ⟨"user", "U"⟩]
  ∧ 1 <
    (((SimpleMemory.fresh 1).add_message "system" "S").add_message "user" "U").get_messages.length :=
  ⟨rfl, by decide⟩

/-- Claim C2: the claim states the eviction policy: for `len(m) > N`, a system-led
list truncates to the first element plus the most recent `N - 1` elements.  At
`N = 1` the code instead returns the first element plus ALL of `m` (the `-0` slice),
duplicating the system message; the claim would give `[system "S"]`.  The capacity-3
scenario from the spec does hold.  This theorem evaluates the code at both inputs. -/
theorem C2_truncation_policy_eval :
    truncate_messages 1 [⟨"system", "S"⟩, ⟨"user", "U1"⟩]
      = [⟨"system", "S"⟩, ⟨"system", "S"⟩, ⟨"user", "U1"⟩]
  ∧ truncate_messages 3
      [⟨"system", "S"⟩, ⟨"user", "U1"⟩, ⟨"assistant", "A1"⟩, ⟨"user", "U2"⟩]
      = [⟨"system", "S"⟩, ⟨"assistant", "A1"⟩, ⟨"user", "U2"⟩] :=
  ⟨rfl, rfl⟩

/-- Claim C3: the claim states that with capacity 1 and a leading system message,
every subsequent `add_message` leaves exactly that one system message.  The code
instead grows the list and duplicates the system message: after one subsequent
append the log is `[system, system, user]`, not `[system]`. -/
theorem C3_capacity_one_system_not_alone :
    (((SimpleMemory.fresh 1).add_message "system" "SP").add_message "user" "Q").get_messages
      = [⟨"system", "SP"⟩, ⟨"system", "SP"⟩, ⟨"user", "Q"⟩]
  ∧ (((SimpleMemory.fresh 1).add_message "system" "SP").add_message "user" "Q").get_messages
      ≠ [⟨"system", "SP"⟩] :=
  ⟨rfl, by decide⟩

/-- Claim C4: the claim states a leading system message is never evicted and never
duplicated.  It stays at index 0, but at capacity 1 the code duplicates it: after a
system append and one user append it occurs twice in the log. -/
theorem C4_system_message_duplicated :
    ((((SimpleMemory.fresh 1).add_message "system" "S0").add_message "user" "U0").get_messages).count
      ⟨"system", "S0"⟩ = 2 := by
  decide

/-- Claim C5 counterexample: the claim states that an invalid role makes `add_message`
fail with an InvalidRole condition and leave the log unchanged.  The code performs no
role validation: appending role "moderator" to a fresh memory succeeds and mutates
the log. -/
theorem C5_invalid_role_counterexample :
    ((SimpleMemory.fresh 20).add_message "moderator" "hi").get_messages
      = [⟨"moderator", "hi"⟩]
  ∧ ((SimpleMemory.fresh 20).add_message "moderator" "hi").get_messages
      ≠ (SimpleMemory.fresh 20).get_messages :=
  ⟨rfl, by decide⟩

/-- Claim C5 (amended): `add_message` performs no role validation: for every role
outside {system, user, assistant} and any content, the call succeeds (no InvalidRole
condition exists in the code) and the message becomes the last element of
`get_messages()`. -/
theorem C5_amended_no_role_validation (mem : SimpleMemory) (role content : String)
    (h1 : role ≠ "system") (h2 : role ≠ "user") (h3 : role ≠ "assistant") :
    ((mem.add_message role content).get_messages).getLast? = some ⟨role, content⟩ :=
  add_message_getLast? mem role content

/-- Witness for the amended Claim C5 at role "moderator". -/
theorem C5_amended_no_role_validation_witness :
    (("moderator" : String) ≠ "system" ∧ ("moderator" : String) ≠ "user"
      ∧ ("moderator" : String) ≠ "assistant")
  ∧ (((SimpleMemory.fresh 20).add_message "moderator" "note").get_messages).getLast?
      = some ⟨"moderator", "note"⟩ :=
  ⟨⟨by decide, by decide, by decide⟩,
    C5_amended_no_role_validation (SimpleMemory.fresh 20) "moderator" "note"
      (by decide) (by decide) (by decide)⟩

/-- Claim C6: for every memory state and every prompt, `clear_memory` leaves a log of
length exactly 1 whose single message has role "system" and the given content. -/
theorem C6_clear_memory (mem : SimpleMemory) (prompt : String) :
    (clear_memory mem prompt).get_messages = [⟨"system", prompt⟩] := by
  unfold clear_memory SimpleMemory.clear SimpleMemory.add_message SimpleMemory.get_messages
  cases mem.max_messages with
  | zero => norm_num [truncate_messages, pySliceFrom]
  | succ n => simp [truncate_messages]

/-- Claim C7: loading from a missing file and loading from an unreadable or unparsable
file both yield the empty message list; `file_load` is a total function, so no error
reaches the caller. -/
theorem C7_load_missing_or_corrupt :
    file_load FileData.missing = LoadedMessages.list []
  ∧ file_load FileData.unreadable = LoadedMessages.list [] :=
  ⟨rfl, rfl⟩

/-- Claim C8: saving any message list and loading it back reproduces the same ordered
list, every role and content preserved exactly. -/
theorem C8_save_load_roundtrip (msgs : List Message) :
    file_load (file_save msgs) = LoadedMessages.list msgs := by
  unfold file_load file_save
  simp [encode_messages, decode_messages, decode_list_map_encode]

/-- Claim C9: when the write raises, `FileMemory.save` catches the exception (it is a
total function, so nothing propagates) and returns the in-memory state unchanged. -/
theorem C9_save_failure_preserves_memory (mem : FileMemory) (fd : FileData) :
    (mem.save true fd).1 = mem :=
  rfl

/-- Claim C10: for every memory state with capacity at least 1, immediately after
`add_message role content` the last element of `get_messages()` is exactly the
message just appended. -/
theorem C10_newest_message_last (mem : SimpleMemory) (role content : String)
    (h : 1 ≤ mem.max_messages) :
    ((mem.add_message role content).get_messages).getLast? = some ⟨role, content⟩ :=
  add_message_getLast? mem role content

/-- Witness for Claim C10 at capacity 3. -/
theorem C10_newest_message_last_witness :
    1 ≤ (SimpleMemory.fresh 3).max_messages
  ∧ (((SimpleMemory.fresh 3).add_message "user" "hi").get_messages).getLast?
      = some ⟨"user", "hi"⟩ :=
  ⟨by decide, C10_newest_message_last (SimpleMemory.fresh 3) "user" "hi" (by decide)⟩

end AgentMemory
